import Mathlib

/-!
Shallow embedding of the inference-and-reasoning core of the
lightweight-action-reasoning-pipeline repository.

Embedded source files:
* `src/reasoning_agent.py` — code-fence stripping, JSON parsing fallback and
  the schema normalizers `_normalize_single_action_json` /
  `_normalize_temporal_json` (the response-normalization layer of
  `llm_reasoning` / `llm_temporal_reasoning`).
* `src/build_dataset.py` — `keypoints_to_vector`.
* `src/full_pipeline.py` — `classify_video` (majority vote over per-frame
  predictions) and the orchestrating `main` loop.

Python strings are modelled by `String`, Python lists by `List`, parsed JSON
values by the inductive `Json` below, and `json.loads` by an executable
fuel-indexed recursive-descent parser.  The external LLM transport, the
trained scaler and the classifier are opaque collaborators: the scaler and
classifier are abstracted as one per-frame prediction function
`predictFrame : List Int → Nat` (the composition `model.predict ∘
scaler.transform`, which both operate row-independently on the batch), and
the pipeline claims quantify over it.
-/

/-- Parsed JSON value, the model of the result of Python's `json.loads`.
Numbers are modelled as integers: the claims under verification never depend
on numeric payloads, and inputs with fractional or exponent parts are treated
as unparseable by the embedded parser (documented modelling restriction). -/
inductive Json where
| null : Json
| bool : Bool → Json
| num : Int → Json
| str : String → Json
| arr : List Json → Json
| obj : List (String × Json) → Json

/-- Test for the JSON null value (Python `is None` / `is not None`). -/
def Json.isNull : Json → Bool
| Json.null => true
| _ => false

/-- JSON whitespace accepted between tokens by `json.loads`. -/
def isJsonWs (c : Char) : Bool :=
  c = ' ' || c = '\t' || c = '\n' || c = '\r'

/-- Skip JSON inter-token whitespace. -/
def skipWs (cs : List Char) : List Char :=
  cs.dropWhile isJsonWs

/-- Value of one hexadecimal digit, if the character is one. -/
def hexVal (c : Char) : Option Nat :=
  if '0' ≤ c ∧ c ≤ '9' then some (c.toNat - 48)
  else if 'a' ≤ c ∧ c ≤ 'f' then some (c.toNat - 87)
  else if 'A' ≤ c ∧ c ≤ 'F' then some (c.toNat - 55)
  else none

/-- Body of a JSON string literal, after the opening quote: returns the
decoded characters and the input remaining after the closing quote.  Raw
control characters are rejected as in strict `json.loads`; the standard
escapes and `\uXXXX` (single code unit) are decoded.  Surrogate-pair
decoding is not modelled. -/
def parseStrAux : List Char → Option (List Char × List Char)
| [] => none
| '"' :: rest => some ([], rest)
| '\\' :: 'u' :: h1 :: h2 :: h3 :: h4 :: rest =>
  match hexVal h1, hexVal h2, hexVal h3, hexVal h4 with
  | some a, some b, some c, some d =>
    (parseStrAux rest).map
      (fun p => (Char.ofNat (((a * 16 + b) * 16 + c) * 16 + d) :: p.1, p.2))
  | _, _, _, _ => none
| '\\' :: e :: rest =>
  match e with
  | '"' => (parseStrAux rest).map (fun p => ('"' :: p.1, p.2))
  | '\\' => (parseStrAux rest).map (fun p => ('\\' :: p.1, p.2))
  | '/' => (parseStrAux rest).map (fun p => ('/' :: p.1, p.2))
  | 'n' => (parseStrAux rest).map (fun p => ('\n' :: p.1, p.2))
  | 't' => (parseStrAux rest).map (fun p => ('\t' :: p.1, p.2))
  | 'r' => (parseStrAux rest).map (fun p => ('\r' :: p.1, p.2))
  | 'b' => (parseStrAux rest).map (fun p => (Char.ofNat 8 :: p.1, p.2))
  | 'f' => (parseStrAux rest).map (fun p => (Char.ofNat 12 :: p.1, p.2))
  | _ => none
| c :: rest =>
  if c.toNat < 32 then none
  else (parseStrAux rest).map (fun p => (c :: p.1, p.2))

/-- Natural number denoted by a list of decimal digit characters. -/
def digitsToNat (ds : List Char) : Nat :=
  ds.foldl (fun a c => 10 * a + (c.toNat - 48)) 0

/-- Integer JSON number token at the head of the input.  JSON's leading-zero
restriction is enforced; a following `.`, `e` or `E` (a fractional or
exponent part) makes the token unparseable in this model. -/
def parseIntTok (cs : List Char) : Option (Int × List Char) :=
  let neg : Bool := match cs with | '-' :: _ => true | _ => false
  let cs1 := if neg then cs.drop 1 else cs
  let ds := cs1.takeWhile Char.isDigit
  let rest := cs1.dropWhile Char.isDigit
  if ds.isEmpty then none
  else if 1 < ds.length ∧ ds.headD '1' = '0' then none
  else
    match rest with
    | '.' :: _ => none
    | 'e' :: _ => none
    | 'E' :: _ => none
    | _ =>
      let n : Int := Int.ofNat (digitsToNat ds)
      some (if neg then -n else n, rest)

mutual

/-- One JSON value at the head of the input (leading whitespace allowed),
fuel-indexed recursive descent modelling `json.loads`. -/
def parseVal : Nat → List Char → Option (Json × List Char)
| 0, _ => none
| Nat.succ fuel, cs =>
  match skipWs cs with
  | 'n' :: 'u' :: 'l' :: 'l' :: rest => some (Json.null, rest)
  | 't' :: 'r' :: 'u' :: 'e' :: rest => some (Json.bool true, rest)
  | 'f' :: 'a' :: 'l' :: 's' :: 'e' :: rest => some (Json.bool false, rest)
  | '"' :: rest =>
    (parseStrAux rest).map (fun p => (Json.str (String.mk p.1), p.2))
  | '[' :: rest =>
    match skipWs rest with
    | ']' :: rest2 => some (Json.arr [], rest2)
    | rest2 => (parseElems fuel rest2).map (fun p => (Json.arr p.1, p.2))
  | '\x7b' :: rest =>
    match skipWs rest with
    | '\x7d' :: rest2 => some (Json.obj [], rest2)
    | rest2 => (parseMembers fuel rest2).map (fun p => (Json.obj p.1, p.2))
  | cs1 => (parseIntTok cs1).map (fun p => (Json.num p.1, p.2))

/-- Non-empty comma-separated element list of a JSON array, up to and
including the closing bracket. -/
def parseElems : Nat → List Char → Option (List Json × List Char)
| 0, _ => none
| Nat.succ fuel, cs =>
  match parseVal fuel cs with
  | none => none
  | some (v, rest) =>
    match skipWs rest with
    | ',' :: rest2 => (parseElems fuel rest2).map (fun p => (v :: p.1, p.2))
    | ']' :: rest2 => some ([v], rest2)
    | _ => none

/-- Non-empty comma-separated member list of a JSON object, up to and
including the closing brace. -/
def parseMembers : Nat → List Char → Option (List (String × Json) × List Char)
| 0, _ => none
| Nat.succ fuel, cs =>
  match skipWs cs with
  | '"' :: rest =>
    match parseStrAux rest with
    | none => none
    | some (key, rest1) =>
      match skipWs rest1 with
      | ':' :: rest2 =>
        match parseVal fuel rest2 with
        | none => none
        | some (v, rest3) =>
          match skipWs rest3 with
          | ',' :: rest4 =>
            (parseMembers fuel rest4).map
              (fun p => ((String.mk key, v) :: p.1, p.2))
          | '\x7d' :: rest4 => some ([(String.mk key, v)], rest4)
          | _ => none
      | _ => none
  | _ => none

end

/-- Model of `json.loads`: parse the whole text as one JSON value; trailing
non-whitespace (or any parse failure) yields `none`, the model of a raised
`json.JSONDecodeError`. -/
def parseJson (s : String) : Option Json :=
  let cs := s.toList
  match parseVal (2 * cs.length + 8) cs with
  | some (v, rest) => if (skipWs rest).isEmpty then some v else none
  | none => none

/-- Whitespace stripped by Python's `str.strip()` (ASCII subset). -/
def isPySpace (c : Char) : Bool :=
  c = ' ' || c = '\t' || c = '\n' || c = '\r' ||
  c = Char.ofNat 11 || c = Char.ofNat 12

/-- Python `str.strip()` on a character list. -/
def pyStrip (cs : List Char) : List Char :=
  ((cs.dropWhile isPySpace).reverse.dropWhile isPySpace).reverse

/-- The backtick character. -/
def btick : Char := Char.ofNat 96

/-- Python `str.strip(chr(96))` — strip backticks from both ends. -/
def stripBticks (cs : List Char) : List Char :=
  ((cs.dropWhile (fun c => c = btick)).reverse.dropWhile
    (fun c => c = btick)).reverse

/-- Model of `_strip_code_fences` from `src/reasoning_agent.py`: strip
whitespace; if the text starts with three backticks, strip all backticks
from both ends, strip whitespace, and drop a leading case-insensitive
`json` language tag (four characters) followed by another strip. -/
def stripCodeFences (s : String) : String :=
  let t := pyStrip s.toList
  if t.take 3 = [btick, btick, btick] then
    let t1 := pyStrip (stripBticks t)
    if (t1.take 4).map Char.toLower = ['j', 's', 'o', 'n'] then
      String.mk (pyStrip (t1.drop 4))
    else
      String.mk t1
  else
    String.mk t

mutual

/-- Python `repr()` of a parsed-JSON value, as used when `str()` renders a
container.  Modelling simplification: string payloads are rendered between
single quotes without Python's escaping rules; no verified claim depends on
the rendered text of a nested container, only on element counts. -/
def pyReprOf : Json → String
| Json.null => "None"
| Json.bool true => "True"
| Json.bool false => "False"
| Json.num n => toString n
| Json.str s => String.mk (Char.ofNat 39 :: (s.toList ++ [Char.ofNat 39]))
| Json.arr xs => "[" ++ pyReprList xs ++ "]"
| Json.obj fs => "\x7b" ++ pyReprMembers fs ++ "\x7d"

/-- Comma-separated reprs of array elements. -/
def pyReprList : List Json → String
| [] => ""
| [x] => pyReprOf x
| x :: rest => pyReprOf x ++ ", " ++ pyReprList rest

/-- Comma-separated reprs of object members. -/
def pyReprMembers : List (String × Json) → String
| [] => ""
| [(k, v)] =>
  String.mk (Char.ofNat 39 :: (k.toList ++ [Char.ofNat 39])) ++ ": " ++
    pyReprOf v
| (k, v) :: rest =>
  String.mk (Char.ofNat 39 :: (k.toList ++ [Char.ofNat 39])) ++ ": " ++
    pyReprOf v ++ ", " ++ pyReprMembers rest

end

/-- Python `str()` of a parsed-JSON value: identity on strings, `None`,
`True`, `False`, decimal for numbers, and repr for containers. -/
def pyStrOf : Json → String
| Json.str s => s
| j => pyReprOf j

/-- Model of `_ensure_str`: `None` becomes the empty string, everything else
is rendered with `str()`. -/
def ensureStr : Json → String
| Json.null => ""
| j => pyStrOf j

/-- Model of `_ensure_list_of_str`: a non-list becomes the empty list; a
list keeps its non-`None` elements, each rendered with `str()`. -/
def ensureListOfStr : Json → List String
| Json.arr xs => (xs.filter (fun j => !j.isNull)).map pyStrOf
| _ => []

/-- Members of a parsed JSON object; any non-object counts as the empty
dict, modelling `if not isinstance(data, dict): data = {}`. -/
def asFields : Json → List (String × Json)
| Json.obj fs => fs
| _ => []

/-- Python `dict.get` on parsed object members (duplicate keys: last one
wins, as in `json.loads` dict construction). -/
def dictGet (fs : List (String × Json)) (k : String) : Option Json :=
  fs.foldl (fun acc p => if p.1 = k then some p.2 else acc) none

/-- Nested `environment` object of the reasoning schema. -/
structure SchemaEnv where
  scene_type : String
  key_objects : List String
deriving DecidableEq

/-- The single-action reasoning object: the 11-key schema guaranteed by
`_normalize_single_action_json` (`environment` counts as one key with two
subkeys). -/
structure ReasoningObject where
  intent : String
  next_step : String
  explanation : String
  environment : SchemaEnv
  agent_state : String
  affordances : List String
  constraints : List String
  task_goal : String
  current_step : String
  future_steps : List String
  target_objects : List String
deriving DecidableEq

/-- The temporal reasoning object guaranteed by `_normalize_temporal_json`. -/
structure TemporalObject where
  overall_task : String
  step_roles : List String
  possible_goal : String
  future_plan : List String
  uncertainty_notes : List String
deriving DecidableEq

/-- One string field of the schema: `_ensure_str(data.get(k, ""))`. -/
def coerceStrField (data : Json) (k : String) : String :=
  ensureStr ((dictGet (asFields data) k).getD (Json.str ""))

/-- One list-of-strings field: `_ensure_list_of_str(data.get(k, []))`. -/
def coerceListField (data : Json) (k : String) : List String :=
  ensureListOfStr ((dictGet (asFields data) k).getD (Json.arr []))

/-- The coerced `environment` member: `data.get("environment", {})` with the
non-dict guard. -/
def envOf (data : Json) : List (String × Json) :=
  asFields ((dictGet (asFields data) "environment").getD (Json.obj []))

/-- Coerced `environment.scene_type`. -/
def envSceneType (data : Json) : String :=
  ensureStr ((dictGet (envOf data) "scene_type").getD (Json.str ""))

/-- Coerced `environment.key_objects`. -/
def envKeyObjects (data : Json) : List String :=
  ensureListOfStr ((dictGet (envOf data) "key_objects").getD (Json.arr []))

/-- Canned affordances appended by the normalizer (verbatim from source). -/
def affordancesCanned : List String :=
  ["approach relevant object safely",
   "grasp/manipulate the object",
   "move to the next location or step"]

/-- Canned constraints appended by the normalizer (verbatim from source). -/
def constraintsCanned : List String :=
  ["avoid collisions with people/objects",
   "ensure stable footing and safe motion"]

/-- Canned future steps appended by the normalizer (verbatim from source). -/
def futureStepsCanned : List String :=
  ["complete the immediate subtask",
   "transition to the next goal-oriented action"]

/-- Canned target objects used when `environment.key_objects` is empty
(verbatim from source). -/
def targetsCanned : List String :=
  ["relevant object", "destination"]

/-- One minimum-cardinality backfill block of the normalizer:
`if len(l) < minLen: l = (l + canned)[:cap]`. -/
def backfillMin (l : List String) (minLen cap : Nat) (canned : List String) :
    List String :=
  if l.length < minLen then (l ++ canned).take cap else l

/-- The `target_objects` backfill block: below 2 entries, borrow from the
coerced `environment.key_objects` when that list is non-empty, otherwise
append the two canned placeholders; either way cap at 4. -/
def backfillTargets (t k : List String) : List String :=
  if t.length < 2 then
    if k.isEmpty then (t ++ targetsCanned).take 4
    else (t ++ k).take 4
  else t

/-- Model of `_normalize_single_action_json` from `src/reasoning_agent.py`:
schema coercion of every declared field followed by the minimum-cardinality
backfill blocks, exactly in the source's order and with the source's canned
strings. -/
def normalizeSingleJson (data : Json) : ReasoningObject :=
  { intent := coerceStrField data "intent"
    next_step := coerceStrField data "next_step"
    explanation := coerceStrField data "explanation"
    environment :=
      { scene_type := envSceneType data
        key_objects := envKeyObjects data }
    agent_state := coerceStrField data "agent_state"
    affordances := backfillMin (coerceListField data "affordances") 3 5
      affordancesCanned
    constraints := backfillMin (coerceListField data "constraints") 2 4
      constraintsCanned
    task_goal := coerceStrField data "task_goal"
    current_step := coerceStrField data "current_step"
    future_steps := backfillMin (coerceListField data "future_steps") 2 4
      futureStepsCanned
    target_objects := backfillTargets (coerceListField data "target_objects")
      (envKeyObjects data) }

/-- The fallback dict built by `llm_reasoning` when `json.loads` raises:
every field empty except `explanation`, which preserves the sanitized
raw text. -/
def fallbackSingle (content : String) : Json :=
  Json.obj
    [("intent", Json.str ""),
     ("next_step", Json.str ""),
     ("explanation", Json.str content),
     ("environment",
       Json.obj [("scene_type", Json.str ""), ("key_objects", Json.arr [])]),
     ("agent_state", Json.str ""),
     ("affordances", Json.arr []),
     ("constraints", Json.arr []),
     ("task_goal", Json.str ""),
     ("current_step", Json.str ""),
     ("future_steps", Json.arr []),
     ("target_objects", Json.arr [])]

/-- The parsed data handed to the single-action normalizer for a given raw
response text: fence-strip, attempt `json.loads`, fall back to the
`fallbackSingle` dict on a decode error (the `try`/`except` of
`llm_reasoning`). -/
def dataOfSingle (raw : String) : Json :=
  match parseJson (stripCodeFences raw) with
  | some d => d
  | none => fallbackSingle (stripCodeFences raw)

/-- The spec's `normalizeSingle(rawText)`: the response-normalization layer
of `llm_reasoning` applied to a raw LLM response text. -/
def normalizeSingle (raw : String) : ReasoningObject :=
  normalizeSingleJson (dataOfSingle raw)

/-- Model of `_normalize_temporal_json` from `src/reasoning_agent.py`. -/
def normalizeTemporalJson (data : Json) : TemporalObject :=
  { overall_task := coerceStrField data "overall_task"
    step_roles := coerceListField data "step_roles"
    possible_goal := coerceStrField data "possible_goal"
    future_plan := coerceListField data "future_plan"
    uncertainty_notes := coerceListField data "uncertainty_notes" }

/-- The fallback dict built by `llm_temporal_reasoning` when `json.loads`
raises: the sanitized raw text is preserved as the single entry of
`uncertainty_notes`. -/
def fallbackTemporal (content : String) : Json :=
  Json.obj
    [("overall_task", Json.str ""),
     ("step_roles", Json.arr []),
     ("possible_goal", Json.str ""),
     ("future_plan", Json.arr []),
     ("uncertainty_notes", Json.arr [Json.str content])]

/-- The parsed data handed to the temporal normalizer for a raw response. -/
def dataOfTemporal (raw : String) : Json :=
  match parseJson (stripCodeFences raw) with
  | some d => d
  | none => fallbackTemporal (stripCodeFences raw)

/-- The spec's `normalizeTemporal(rawText)`: the response-normalization
layer of `llm_temporal_reasoning` applied to a raw LLM response text. -/
def normalizeTemporal (raw : String) : TemporalObject :=
  normalizeTemporalJson (dataOfTemporal raw)

/-- Model of `keypoints_to_vector` from `src/build_dataset.py`.  A detection
is an ordered list of `(x, y, confidence)` triples or the `None` sentinel;
`np.array(...).reshape(-1, 3).flatten()` on such a nested list is exactly
its row-major flattening.  Coordinate values are modelled as integers (the
function performs no arithmetic on them, only copying, truncation and
zero-padding). -/
def keypoints_to_vector (keypoints : Option (List (Int × Int × Int)))
    (dim : Nat) : List Int :=
  match keypoints with
  | none => List.replicate dim 0
  | some kps =>
    let flat := kps.flatMap (fun t => [t.1, t.2.1, t.2.2])
    if dim ≤ flat.length then flat.take dim
    else flat ++ List.replicate (dim - flat.length) 0

/-- The fixed action roster of `src/full_pipeline.py` (training order). -/
def ACTIONS : List String :=
  ["open_door", "pick_book", "pour_water", "walk_stop"]

/-- Model of the `IDX_TO_LABEL` mapping of `src/full_pipeline.py`.  The
source dict raises `KeyError` outside `0..3`; the model totalizes with the
empty string, and the classification theorems hypothesize in-range
predictions (a trained 4-class classifier only emits indices `0..3`). -/
def IDX_TO_LABEL (i : Nat) : String :=
  ACTIONS.getD i ""

/-- Maximum of a list of naturals (0 for the empty list). -/
def maxVal (l : List Nat) : Nat :=
  l.foldr Nat.max 0

/-- Model of `np.unique(l)` for natural-number entries: the sorted list of
distinct values occurring in `l`, realized as the occurring members of
`range (max + 1)` in ascending order. -/
def npUnique (l : List Nat) : List Nat :=
  (List.range (maxVal l + 1)).filter (fun i => decide (i ∈ l))

/-- Model of `np.argmax(l)`: the index of the first occurrence of the
maximal entry. -/
def npArgmax (l : List Nat) : Nat :=
  l.findIdx (fun v => v == maxVal l)

/-- The aggregation core of `classify_video` applied to the per-frame
predicted label indices: tally with `np.unique(..., return_counts=True)`,
build the label→count dict in ascending index order, and pick
`unique[np.argmax(counts)]` as majority. -/
def classifyPreds (preds : List Nat) : Option String × List (String × Nat) :=
  let uniq := npUnique preds
  let counts := uniq.map (fun u => preds.count u)
  let countDict := (uniq.zip counts).map (fun p => (IDX_TO_LABEL p.1, p.2))
  (some (IDX_TO_LABEL (uniq.getD (npArgmax counts) 0)), countDict)

/-- One frame of the pose store: the `keypoints` entry of the per-frame
JSON record — a detection or the `None` sentinel. -/
abbrev PoseFrame := Option (List (Int × Int × Int))

/-- Per-frame predicted label indices of one clip: every frame is encoded
with `keypoints_to_vector` at `dim = 51` and passed through the abstracted
per-frame predictor (the row-wise `model.predict ∘ scaler.transform` of the
source). -/
def framePreds (predictFrame : List Int → Nat) (frames : List PoseFrame) :
    List Nat :=
  frames.map (fun fr => predictFrame (keypoints_to_vector fr 51))

/-- Model of `classify_video` from `src/full_pipeline.py`.  A missing pose
directory is `none`; a present directory yields the ordered list of frames.
An absent directory or an empty frame list returns `(None, {})` before any
prediction is attempted; otherwise the per-frame predictions are aggregated
by majority vote. -/
def classify_video (predictFrame : List Int → Nat)
    (framesOpt : Option (List PoseFrame)) :
    Option String × List (String × Nat) :=
  match framesOpt with
  | none => (none, [])
  | some frames =>
    if frames.isEmpty then (none, [])
    else classifyPreds (framePreds predictFrame frames)

/-- Observable outcome of one pipeline run: the accumulated action history,
the labels for which a per-action reasoning request was issued (in order),
and the history handed to the temporal reasoning stage when that stage
runs. -/
structure PipelineResult where
  history : List String
  perAction : List String
  temporal : Option (List String)
deriving DecidableEq

/-- The per-action loop of `main` in `src/full_pipeline.py` over a roster:
classify each action's clip; on `None` skip (`continue`), otherwise append
the majority label to the history and issue one per-action reasoning
request for it.  Returns (history, reasoned labels). -/
def runLoop (predictFrame : List Int → Nat)
    (store : String → Option (List PoseFrame)) :
    List String → List String × List String
| [] => ([], [])
| a :: rest =>
  let r := runLoop predictFrame store rest
  match (classify_video predictFrame (store a)).1 with
  | none => r
  | some lbl => (lbl :: r.1, lbl :: r.2)

/-- Model of `main` from `src/full_pipeline.py` run over an arbitrary
roster: the per-action loop followed by the temporal stage, which is issued
exactly once over the full ordered history when the history is non-empty
and skipped entirely when it is empty. -/
def runPipelineOn (predictFrame : List Int → Nat)
    (store : String → Option (List PoseFrame)) (roster : List String) :
    PipelineResult :=
  let hp := runLoop predictFrame store roster
  { history := hp.1
    perAction := hp.2
    temporal := if hp.1.isEmpty then none else some hp.1 }

/-- The pipeline over the fixed roster, as `main` runs it. -/
def runPipeline (predictFrame : List Int → Nat)
    (store : String → Option (List PoseFrame)) : PipelineResult :=
  runPipelineOn predictFrame store ACTIONS

/-- The declared cardinality bounds of the four list fields of a
single-action reasoning object: `affordances` in [3,5] and `constraints`,
`future_steps`, `target_objects` in [2,4]. -/
def singleBoundsOk (o : ReasoningObject) : Prop :=
  3 ≤ o.affordances.length ∧ o.affordances.length ≤ 5 ∧
  2 ≤ o.constraints.length ∧ o.constraints.length ≤ 4 ∧
  2 ≤ o.future_steps.length ∧ o.future_steps.length ≤ 4 ∧
  2 ≤ o.target_objects.length ∧ o.target_objects.length ≤ 4

instance (o : ReasoningObject) : Decidable (singleBoundsOk o) := by
  unfold singleBoundsOk
  infer_instance

/-- Concrete per-frame predictor for the end-to-end scenarios: a frame with
no detection (all-zero vector) is classified `open_door` (index 0), any
other frame `walk_stop` (index 3). -/
def predictFrameExample : List Int → Nat :=
  fun v => if v.headD 0 = 0 then 0 else 3

/-- Ten frames: seven without a detection, three with one, realizing the
spec's 7/3 `open_door` / `walk_stop` split under `predictFrameExample`. -/
def framesExample : List PoseFrame :=
  [none, none, none, none, none, none, none,
   some [(1, 1, 1)], some [(1, 1, 1)], some [(1, 1, 1)]]

/-- Constant predictor used by concrete pipeline witnesses. -/
def predictZero : List Int → Nat := fun _ => 0

/-- Pose store with every action directory absent. -/
def storeNone : String → Option (List PoseFrame) := fun _ => none

/-- Pose store holding exactly one one-frame clip, for `open_door`. -/
def storeOneClip : String → Option (List PoseFrame) :=
  fun a => if a = "open_door" then some [none] else none

/-- Two frames producing the tied predictions `[0, 3]` under
`predictFrameExample`. -/
def framesTie : List PoseFrame := [none, some [(1, 1, 1)]]

/-! ## Helper lemmas about the normalizer's backfill blocks -/

/-- Lower bound of a backfill block: when the canned pool and the cap can
cover the minimum, the result has at least the minimum length. -/
theorem backfillMin_length_ge (l : List String) (minLen cap : Nat)
    (canned : List String) (hc : minLen ≤ l.length + canned.length)
    (hcap : minLen ≤ cap) :
    minLen ≤ (backfillMin l minLen cap canned).length := by
  unfold backfillMin
  split
  · simp only [List.length_take, List.length_append]
    omega
  · omega

/-- Cap of a backfill block: the cap is respected whenever the incoming
list does not already exceed it. -/
theorem backfillMin_length_le (l : List String) (minLen cap : Nat)
    (canned : List String) (hl : l.length ≤ cap) :
    (backfillMin l minLen cap canned).length ≤ cap := by
  unfold backfillMin
  split
  · simp only [List.length_take, List.length_append]
    omega
  · omega

/-- The target backfill always leaves at least one entry. -/
theorem backfillTargets_length_ge_one (t k : List String) :
    1 ≤ (backfillTargets t k).length := by
  unfold backfillTargets
  split
  · split
    · simp only [List.length_take, List.length_append, targetsCanned,
        List.length_cons, List.length_nil]
      omega
    · rename_i hk
      have hk' : k ≠ [] := by
        intro h
        exact hk (by simp [h])
      have : 0 < k.length := List.length_pos.mpr hk'
      simp only [List.length_take, List.length_append]
      omega
  · omega

/-- The target backfill reaches the minimum of two entries whenever the
borrow pool is empty (canned placeholders fill the gap) or the incoming
entries plus the pool already hold two. -/
theorem backfillTargets_length_ge_two (t k : List String)
    (h : k = [] ∨ 2 ≤ t.length + k.length) :
    2 ≤ (backfillTargets t k).length := by
  unfold backfillTargets
  split
  · rename_i hlt
    split
    · simp only [List.length_take, List.length_append, targetsCanned,
        List.length_cons, List.length_nil]
      omega
    · rename_i hk
      have hk' : k ≠ [] := by
        intro h
        exact hk (by simp [h])
      rcases h with h | h
      · exact absurd h hk'
      · simp only [List.length_take, List.length_append]
        omega
  · omega

/-- The target backfill respects the cap of four whenever the incoming list
does not already exceed it. -/
theorem backfillTargets_length_le (t k : List String)
    (hl : t.length ≤ 4) :
    (backfillTargets t k).length ≤ 4 := by
  unfold backfillTargets
  split
  · split
    · simp only [List.length_take, List.length_append]
      omega
    · simp only [List.length_take, List.length_append]
      omega
  · omega

/-- Lower bounds of every backfilled list of a normalized single-action
object, for arbitrary parsed data. -/
theorem normalizeSingleJson_lower_bounds (d : Json) :
    3 ≤ (normalizeSingleJson d).affordances.length ∧
    2 ≤ (normalizeSingleJson d).constraints.length ∧
    2 ≤ (normalizeSingleJson d).future_steps.length ∧
    1 ≤ (normalizeSingleJson d).target_objects.length := by
  refine ⟨?_, ?_, ?_, ?_⟩
  · exact backfillMin_length_ge _ 3 5 _ (by simp [affordancesCanned]) (by omega)
  · exact backfillMin_length_ge _ 2 4 _ (by simp [constraintsCanned]) (by omega)
  · exact backfillMin_length_ge _ 2 4 _ (by simp [futureStepsCanned]) (by omega)
  · exact backfillTargets_length_ge_one _ _

/-! ## Claim C1 -/

set_option maxRecDepth 8000 in
/-- C1: `normalizeSingle` is total — in this embedding it is a function
into the `ReasoningObject` record, whose type guarantees all 11 required
keys with their declared types on every input string; moreover the
backfilled list fields always reach their schema minima (`affordances` ≥ 3,
`constraints` ≥ 2, `future_steps` ≥ 2, `target_objects` ≥ 1), and on each
of the four malformed inputs listed in the spec (empty string, truncated
JSON, valid JSON missing all keys, valid JSON with wrong types) all four
list fields satisfy the declared cardinality bounds. -/
theorem normalizeSingle_total_schema_complete :
    (∀ raw : String,
      3 ≤ (normalizeSingle raw).affordances.length ∧
      2 ≤ (normalizeSingle raw).constraints.length ∧
      2 ≤ (normalizeSingle raw).future_steps.length ∧
      1 ≤ (normalizeSingle raw).target_objects.length) ∧
    singleBoundsOk (normalizeSingle "") ∧
    singleBoundsOk (normalizeSingle "\x7b\"intent\": \"open the door\"") ∧
    singleBoundsOk (normalizeSingle "\x7b\x7d") ∧
    singleBoundsOk (normalizeSingle
      "\x7b\"intent\": [1, 2], \"affordances\": \"walk\", \"constraints\": 3, \"future_steps\": \x7b\"a\": 1\x7d, \"target_objects\": true, \"environment\": \"room\"\x7d") := by
  refine ⟨fun raw => normalizeSingleJson_lower_bounds (dataOfSingle raw),
    ?_, ?_, ?_, ?_⟩ <;> decide

/-! ## Claim C2 -/

/-- C2 (amended): when the coerced `target_objects` has fewer than 2
entries, the normalizer appends the whole coerced `environment.key_objects`
list (in order, result capped at 4) when that list is non-empty, and
appends the canned placeholders only when `key_objects` is empty.  The
result therefore has at least 1 entry always, and at least 2 whenever
`key_objects` is empty or the two lists together supply at least 2
entries — but not in general: a single borrowed key object can leave the
field with exactly 1 entry. -/
theorem normalizeSingle_target_borrow (raw : String)
    (h : (coerceListField (dataOfSingle raw) "target_objects").length < 2) :
    (normalizeSingle raw).target_objects =
      (if envKeyObjects (dataOfSingle raw) = [] then
        coerceListField (dataOfSingle raw) "target_objects" ++ targetsCanned
      else
        coerceListField (dataOfSingle raw) "target_objects" ++
          envKeyObjects (dataOfSingle raw)).take 4 ∧
    1 ≤ (normalizeSingle raw).target_objects.length ∧
    (envKeyObjects (dataOfSingle raw) = [] →
      2 ≤ (normalizeSingle raw).target_objects.length) ∧
    (2 ≤ (coerceListField (dataOfSingle raw) "target_objects").length +
        (envKeyObjects (dataOfSingle raw)).length →
      2 ≤ (normalizeSingle raw).target_objects.length) := by
  have hproj : (normalizeSingle raw).target_objects =
      backfillTargets (coerceListField (dataOfSingle raw) "target_objects")
        (envKeyObjects (dataOfSingle raw)) := rfl
  refine ⟨?_, ?_, ?_, ?_⟩
  · rw [hproj]
    unfold backfillTargets
    rw [if_pos h]
    by_cases hk : envKeyObjects (dataOfSingle raw) = []
    · rw [if_pos (by simp [hk]), if_pos hk]
    · rw [if_neg (by simp [hk]), if_neg hk]
  · rw [hproj]
    exact backfillTargets_length_ge_one _ _
  · intro hk
    rw [hproj]
    exact backfillTargets_length_ge_two _ _ (Or.inl hk)
  · intro h2
    rw [hproj]
    exact backfillTargets_length_ge_two _ _ (Or.inr h2)

set_option maxRecDepth 8000 in
/-- Witness for the amended C2 theorem at the empty input, whose coerced
`target_objects` is empty and whose `key_objects` pool is empty. -/
theorem normalizeSingle_target_borrow_witness :
    (normalizeSingle "").target_objects =
      (if envKeyObjects (dataOfSingle "") = [] then
        coerceListField (dataOfSingle "") "target_objects" ++ targetsCanned
      else
        coerceListField (dataOfSingle "") "target_objects" ++
          envKeyObjects (dataOfSingle "")).take 4 ∧
    1 ≤ (normalizeSingle "").target_objects.length ∧
    (envKeyObjects (dataOfSingle "") = [] →
      2 ≤ (normalizeSingle "").target_objects.length) ∧
    (2 ≤ (coerceListField (dataOfSingle "") "target_objects").length +
        (envKeyObjects (dataOfSingle "")).length →
      2 ≤ (normalizeSingle "").target_objects.length) :=
  normalizeSingle_target_borrow "" (by decide)

set_option maxRecDepth 8000 in
/-- Counterexample to C2 as stated: on a response whose `environment.key_objects`
is the single entry `"cup"` and whose `target_objects` is absent, the
normalizer borrows the one key object and appends no canned placeholder, so
the returned `target_objects` has exactly 1 entry, below the claimed
minimum of 2. -/
theorem normalizeSingle_target_borrow_counterexample :
    (normalizeSingle
      "\x7b\"environment\": \x7b\"key_objects\": [\"cup\"]\x7d\x7d").target_objects
      = ["cup"] ∧
    ¬ 2 ≤ (normalizeSingle
      "\x7b\"environment\": \x7b\"key_objects\": [\"cup\"]\x7d\x7d").target_objects.length := by
  decide

/-! ## Claim C3 -/

set_option maxRecDepth 8000 in
/-- C3 (amended): `normalizeTemporal` on the empty string raises no error
and returns the default-schema temporal object in which every string field
is empty and `step_roles` and `future_plan` are empty lists, while
`uncertainty_notes` preserves the sanitized raw text — here the empty
string — as its single entry. -/
theorem normalizeTemporal_empty_string :
    normalizeTemporal "" =
      { overall_task := "", step_roles := [], possible_goal := "",
        future_plan := [], uncertainty_notes := [""] } := by
  decide

set_option maxRecDepth 8000 in
/-- Counterexample to C3 as stated: `normalizeTemporal ""` does not leave
`uncertainty_notes` empty — the raw text is preserved as a single entry, so
the list has length 1. -/
theorem normalizeTemporal_empty_string_counterexample :
    (normalizeTemporal "").uncertainty_notes = [""] ∧
    (normalizeTemporal "").uncertainty_notes ≠ [] := by
  decide

/-! ## Claim C4 -/

/-- C4 (amended): for every input string the returned lists satisfy the
schema minima (`affordances` ≥ 3, `constraints` ≥ 2, `future_steps` ≥ 2,
`target_objects` ≥ 1, and ≥ 2 when `key_objects` is empty or supplies
enough entries); each cap (5/4/4/4) holds whenever the corresponding
coerced input list does not already exceed it — an oversized well-formed
input list is passed through unmodified and never truncated. -/
theorem normalizeSingle_list_bounds (raw : String) :
    3 ≤ (normalizeSingle raw).affordances.length ∧
    2 ≤ (normalizeSingle raw).constraints.length ∧
    2 ≤ (normalizeSingle raw).future_steps.length ∧
    1 ≤ (normalizeSingle raw).target_objects.length ∧
    ((coerceListField (dataOfSingle raw) "affordances").length ≤ 5 →
      (normalizeSingle raw).affordances.length ≤ 5) ∧
    ((coerceListField (dataOfSingle raw) "constraints").length ≤ 4 →
      (normalizeSingle raw).constraints.length ≤ 4) ∧
    ((coerceListField (dataOfSingle raw) "future_steps").length ≤ 4 →
      (normalizeSingle raw).future_steps.length ≤ 4) ∧
    ((coerceListField (dataOfSingle raw) "target_objects").length ≤ 4 →
      (normalizeSingle raw).target_objects.length ≤ 4) ∧
    ((envKeyObjects (dataOfSingle raw) = [] ∨
        2 ≤ (coerceListField (dataOfSingle raw) "target_objects").length +
          (envKeyObjects (dataOfSingle raw)).length) →
      2 ≤ (normalizeSingle raw).target_objects.length) := by
  obtain ⟨h1, h2, h3, h4⟩ := normalizeSingleJson_lower_bounds (dataOfSingle raw)
  refine ⟨h1, h2, h3, h4, ?_, ?_, ?_, ?_, ?_⟩
  · intro hle
    exact backfillMin_length_le _ 3 5 _ hle
  · intro hle
    exact backfillMin_length_le _ 2 4 _ hle
  · intro hle
    exact backfillMin_length_le _ 2 4 _ hle
  · intro hle
    exact backfillTargets_length_le _ _ hle
  · intro hor
    have hproj : (normalizeSingle raw).target_objects =
        backfillTargets (coerceListField (dataOfSingle raw) "target_objects")
          (envKeyObjects (dataOfSingle raw)) := rfl
    rw [hproj]
    rcases hor with hk | h2'
    · exact backfillTargets_length_ge_two _ _ (Or.inl hk)
    · exact backfillTargets_length_ge_two _ _ (Or.inr h2')

set_option maxRecDepth 8000 in
/-- Witness for the amended C4 theorem at the valid JSON input missing all
keys, discharging every cap hypothesis concretely. -/
theorem normalizeSingle_list_bounds_witness :
    3 ≤ (normalizeSingle "\x7b\x7d").affordances.length ∧
    2 ≤ (normalizeSingle "\x7b\x7d").constraints.length ∧
    2 ≤ (normalizeSingle "\x7b\x7d").future_steps.length ∧
    1 ≤ (normalizeSingle "\x7b\x7d").target_objects.length ∧
    ((coerceListField (dataOfSingle "\x7b\x7d") "affordances").length ≤ 5 →
      (normalizeSingle "\x7b\x7d").affordances.length ≤ 5) ∧
    ((coerceListField (dataOfSingle "\x7b\x7d") "constraints").length ≤ 4 →
      (normalizeSingle "\x7b\x7d").constraints.length ≤ 4) ∧
    ((coerceListField (dataOfSingle "\x7b\x7d") "future_steps").length ≤ 4 →
      (normalizeSingle "\x7b\x7d").future_steps.length ≤ 4) ∧
    ((coerceListField (dataOfSingle "\x7b\x7d") "target_objects").length ≤ 4 →
      (normalizeSingle "\x7b\x7d").target_objects.length ≤ 4) ∧
    ((envKeyObjects (dataOfSingle "\x7b\x7d") = [] ∨
        2 ≤ (coerceListField (dataOfSingle "\x7b\x7d") "target_objects").length +
          (envKeyObjects (dataOfSingle "\x7b\x7d")).length) →
      2 ≤ (normalizeSingle "\x7b\x7d").target_objects.length) :=
  normalizeSingle_list_bounds "\x7b\x7d"

set_option maxRecDepth 8000 in
/-- Counterexample to C4 as stated: a well-formed response with 6
affordances keeps all 6 — the returned `affordances` list violates the
claimed upper bound of 5. -/
theorem normalizeSingle_list_bounds_counterexample :
    (normalizeSingle
      "\x7b\"affordances\": [\"a1\", \"a2\", \"a3\", \"a4\", \"a5\", \"a6\"]\x7d").affordances.length
      = 6 ∧
    ¬ (normalizeSingle
      "\x7b\"affordances\": [\"a1\", \"a2\", \"a3\", \"a4\", \"a5\", \"a6\"]\x7d").affordances.length
      ≤ 5 := by
  decide

/-! ## Claim C5 -/

/-- Normalizing the decode-error fallback dict yields the empty placeholder
object with the sanitized raw text preserved in `explanation` and the
canned backfill in the list fields. -/
theorem normalizeSingleJson_fallback (c : String) :
    normalizeSingleJson (fallbackSingle c) =
      { intent := "", next_step := "", explanation := c,
        environment := { scene_type := "", key_objects := [] },
        agent_state := "", affordances := affordancesCanned,
        constraints := constraintsCanned, task_goal := "",
        current_step := "", future_steps := futureStepsCanned,
        target_objects := targetsCanned } := rfl

/-- C5 (amended): for every input whose sanitized text fails to parse as
JSON at all (a decode error), the error is not propagated: the normalizer
substitutes the empty structural placeholder and the returned object
preserves the sanitized raw text in `explanation`.  (An input that parses
to a non-object JSON value — a bare number, string, list, or boolean — is
instead coerced to the empty placeholder with an empty `explanation`; see
the counterexample.) -/
theorem normalizeSingle_parse_failure (raw : String)
    (h : parseJson (stripCodeFences raw) = none) :
    (normalizeSingle raw).explanation = stripCodeFences raw ∧
    (normalizeSingle raw).intent = "" ∧
    (normalizeSingle raw).next_step = "" ∧
    (normalizeSingle raw).agent_state = "" ∧
    (normalizeSingle raw).task_goal = "" ∧
    (normalizeSingle raw).current_step = "" ∧
    (normalizeSingle raw).environment =
      { scene_type := "", key_objects := [] } ∧
    (normalizeSingle raw).affordances = affordancesCanned ∧
    (normalizeSingle raw).constraints = constraintsCanned ∧
    (normalizeSingle raw).future_steps = futureStepsCanned ∧
    (normalizeSingle raw).target_objects = targetsCanned := by
  have hdata : dataOfSingle raw = fallbackSingle (stripCodeFences raw) := by
    unfold dataOfSingle
    rw [h]
  have hobj : normalizeSingle raw =
      { intent := "", next_step := "",
        explanation := stripCodeFences raw,
        environment := { scene_type := "", key_objects := [] },
        agent_state := "", affordances := affordancesCanned,
        constraints := constraintsCanned, task_goal := "",
        current_step := "", future_steps := futureStepsCanned,
        target_objects := targetsCanned } := by
    unfold normalizeSingle
    rw [hdata, normalizeSingleJson_fallback]
  rw [hobj]
  exact ⟨rfl, rfl, rfl, rfl, rfl, rfl, rfl, rfl, rfl, rfl, rfl⟩

/-- Witness for the amended C5 theorem at a non-JSON input. -/
theorem normalizeSingle_parse_failure_witness :
    (normalizeSingle "hello").explanation = stripCodeFences "hello" ∧
    (normalizeSingle "hello").intent = "" ∧
    (normalizeSingle "hello").next_step = "" ∧
    (normalizeSingle "hello").agent_state = "" ∧
    (normalizeSingle "hello").task_goal = "" ∧
    (normalizeSingle "hello").current_step = "" ∧
    (normalizeSingle "hello").environment =
      { scene_type := "", key_objects := [] } ∧
    (normalizeSingle "hello").affordances = affordancesCanned ∧
    (normalizeSingle "hello").constraints = constraintsCanned ∧
    (normalizeSingle "hello").future_steps = futureStepsCanned ∧
    (normalizeSingle "hello").target_objects = targetsCanned :=
  normalizeSingle_parse_failure "hello" rfl

set_option maxRecDepth 8000 in
/-- Counterexample to C5 as stated: the input `"3"` does not parse as a
single JSON object (it parses as a JSON number), yet the returned
`explanation` is the empty string, not the sanitized raw text `"3"` — a
successfully-parsed non-object response loses its raw text. -/
theorem normalizeSingle_parse_failure_counterexample :
    parseJson (stripCodeFences "3") = some (Json.num 3) ∧
    stripCodeFences "3" = "3" ∧
    (normalizeSingle "3").explanation = "" ∧
    (normalizeSingle "3").explanation ≠ stripCodeFences "3" := by
  refine ⟨rfl, rfl, rfl, ?_⟩
  decide

/-! ## Claim C6 -/

/-- C6: `keypoints_to_vector` is total and always returns a vector of
length exactly `dim`: the all-zero vector for the no-detection sentinel;
the first `dim` flattened values, unmodified, when the row-major flattening
is at least `dim` long; and the flattened values followed by zero padding
when it is shorter.  This holds for every detection length and every
`dim ≥ 0`. -/
theorem keypoints_to_vector_spec (kp : Option (List (Int × Int × Int)))
    (dim : Nat) :
    (keypoints_to_vector kp dim).length = dim ∧
    (kp = none → keypoints_to_vector kp dim = List.replicate dim 0) ∧
    (∀ kps, kp = some kps →
      (dim ≤ (kps.flatMap (fun t => [t.1, t.2.1, t.2.2])).length →
        keypoints_to_vector kp dim =
          (kps.flatMap (fun t => [t.1, t.2.1, t.2.2])).take dim) ∧
      ((kps.flatMap (fun t => [t.1, t.2.1, t.2.2])).length < dim →
        keypoints_to_vector kp dim =
          kps.flatMap (fun t => [t.1, t.2.1, t.2.2]) ++
            List.replicate
              (dim - (kps.flatMap (fun t => [t.1, t.2.1, t.2.2])).length)
              0)) := by
  refine ⟨?_, ?_, ?_⟩
  · cases kp with
    | none => simp [keypoints_to_vector]
    | some kps =>
      simp only [keypoints_to_vector]
      split
      · rename_i hle
        simp only [List.length_take]
        omega
      · rename_i hgt
        simp only [List.length_append, List.length_replicate]
        omega
  · intro h
    subst h
    rfl
  · intro kps h
    subst h
    constructor
    · intro hle
      simp only [keypoints_to_vector]
      rw [if_pos hle]
    · intro hlt
      simp only [keypoints_to_vector]
      rw [if_neg (by omega)]

/-- Witness for C6 at a single-triple detection and `dim = 5` (padding
branch) together with the sentinel case at `dim = 3`. -/
theorem keypoints_to_vector_spec_witness :
    keypoints_to_vector (some [((1 : Int), (2 : Int), (3 : Int))]) 5 =
      [1, 2, 3] ++ List.replicate 2 0 ∧
    keypoints_to_vector none 3 = List.replicate 3 0 := by
  constructor
  · exact ((keypoints_to_vector_spec (some [(1, 2, 3)]) 5).2.2 _ rfl).2
      (by decide)
  · exact (keypoints_to_vector_spec none 3).2.1 rfl

/-! ## Helper lemmas for the majority-vote aggregation -/

theorem le_maxVal {l : List Nat} {i : Nat} (h : i ∈ l) : i ≤ maxVal l := by
  induction l with
  | nil => cases h
  | cons a t ih =>
    rcases List.mem_cons.mp h with h | h
    · subst h
      exact Nat.le_max_left _ _
    · exact Nat.le_trans (ih h) (Nat.le_max_right _ _)

theorem mem_npUnique {l : List Nat} {i : Nat} : i ∈ npUnique l ↔ i ∈ l := by
  unfold npUnique
  simp only [List.mem_filter, List.mem_range, decide_eq_true_eq]
  constructor
  · exact fun h => h.2
  · exact fun h => ⟨Nat.lt_succ_of_le (le_maxVal h), h⟩

theorem npUnique_pairwise (l : List Nat) : (npUnique l).Pairwise (· < ·) :=
  List.Pairwise.sublist (List.filter_sublist _) (List.pairwise_lt_range _)

theorem maxVal_mem {l : List Nat} (h : l ≠ []) : maxVal l ∈ l := by
  induction l with
  | nil => exact absurd rfl h
  | cons a t ih =>
    cases t with
    | nil => simp [maxVal]
    | cons b t' =>
      rcases Nat.le_total a (maxVal (b :: t')) with h1 | h1
      · have hx : maxVal (a :: b :: t') = maxVal (b :: t') := by
          show Nat.max a (maxVal (b :: t')) = maxVal (b :: t')
          exact Nat.max_eq_right h1
        rw [hx]
        exact List.mem_cons_of_mem _ (ih (by simp))
      · have hx : maxVal (a :: b :: t') = a := by
          show Nat.max a (maxVal (b :: t')) = a
          exact Nat.max_eq_left h1
        rw [hx]
        exact List.mem_cons_self _ _

theorem npArgmax_lt {c : List Nat} (h : c ≠ []) : npArgmax c < c.length :=
  List.findIdx_lt_length_of_exists ⟨maxVal c, maxVal_mem h, by simp⟩

theorem npArgmax_getD {c : List Nat} (h : c ≠ []) :
    c.getD (npArgmax c) 0 = maxVal c := by
  have hlt := npArgmax_lt h
  rw [List.getD_eq_getElem _ _ hlt]
  have h2 := @List.findIdx_getElem Nat (fun v => v == maxVal c) c hlt
  simpa using h2

theorem npArgmax_first_getD {c : List Nat} {i : Nat} (h : i < npArgmax c)
    (hi : i < c.length) : c.getD i 0 ≠ maxVal c := by
  rw [List.getD_eq_getElem _ _ hi]
  have h2 := @List.not_of_lt_findIdx Nat (fun v => v == maxVal c) c i h
  simpa using h2

theorem getD_map_count (preds l : List Nat) {i : Nat} (h : i < l.length) :
    (l.map (fun u => preds.count u)).getD i 0 = preds.count (l.getD i 0) := by
  rw [List.getD_eq_getElem _ _ h,
    List.getD_eq_getElem _ _ (by simpa using h), List.getElem_map]

theorem zip_map_self {α β : Type} (f : α → β) (l : List α) :
    l.zip (l.map f) = l.map (fun a => (a, f a)) := by
  induction l with
  | nil => rfl
  | cons a t ih => simp [ih]

theorem classifyPreds_dict (preds : List Nat) :
    (classifyPreds preds).2 =
      (npUnique preds).map (fun u => (IDX_TO_LABEL u, preds.count u)) := by
  unfold classifyPreds
  simp only [zip_map_self, List.map_map]
  rfl

theorem classifyPreds_majority (preds : List Nat) (hne : preds ≠ []) :
    ∃ m, m ∈ preds ∧ (classifyPreds preds).1 = some (IDX_TO_LABEL m) ∧
      (∀ j ∈ preds, preds.count j ≤ preds.count m) ∧
      (∀ j ∈ preds, preds.count j = preds.count m → m ≤ j) := by
  have hune : npUnique preds ≠ [] := by
    obtain ⟨p, t, rfl⟩ := List.exists_cons_of_ne_nil hne
    exact List.ne_nil_of_mem (mem_npUnique.mpr (List.mem_cons_self _ _))
  have hcne : (npUnique preds).map (fun u => preds.count u) ≠ [] := by
    simpa using hune
  have hargc := npArgmax_lt hcne
  have hargu : npArgmax ((npUnique preds).map (fun u => preds.count u)) <
      (npUnique preds).length := by
    simpa using hargc
  refine ⟨(npUnique preds).getD
      (npArgmax ((npUnique preds).map (fun u => preds.count u))) 0,
    ?_, rfl, ?_, ?_⟩
  · rw [List.getD_eq_getElem _ _ hargu]
    exact mem_npUnique.mp (List.get_mem _ _ _)
  · intro k hk
    have hcm : preds.count
        ((npUnique preds).getD
          (npArgmax ((npUnique preds).map (fun u => preds.count u))) 0) =
        maxVal ((npUnique preds).map (fun u => preds.count u)) := by
      rw [← getD_map_count preds _ hargu]
      exact npArgmax_getD hcne
    rw [hcm]
    have hku : k ∈ npUnique preds := mem_npUnique.mpr hk
    exact le_maxVal (List.mem_map_of_mem _ hku)
  · intro k hk hkeq
    have hcm : preds.count
        ((npUnique preds).getD
          (npArgmax ((npUnique preds).map (fun u => preds.count u))) 0) =
        maxVal ((npUnique preds).map (fun u => preds.count u)) := by
      rw [← getD_map_count preds _ hargu]
      exact npArgmax_getD hcne
    have hku : k ∈ npUnique preds := mem_npUnique.mpr hk
    obtain ⟨idx, hidxlt, hidxval⟩ := List.getElem_of_mem hku
    have hidxc : idx < ((npUnique preds).map (fun u => preds.count u)).length := by
      simpa using hidxlt
    have hcidx : ((npUnique preds).map (fun u => preds.count u)).getD idx 0 =
        preds.count k := by
      rw [getD_map_count preds _ hidxlt, List.getD_eq_getElem _ _ hidxlt, hidxval]
    have hjle : npArgmax ((npUnique preds).map (fun u => preds.count u)) ≤ idx := by
      by_contra hlt
      push_neg at hlt
      exact npArgmax_first_getD hlt hidxc (by rw [hcidx, hkeq, hcm])
    rcases Nat.lt_or_ge (npArgmax ((npUnique preds).map (fun u => preds.count u)))
        idx with hlt | hge
    · have hpw := npUnique_pairwise preds
      rw [List.pairwise_iff_getElem] at hpw
      have := hpw _ _ hargu hidxlt hlt
      rw [hidxval] at this
      rw [List.getD_eq_getElem _ _ hargu]
      exact Nat.le_of_lt this
    · have heq : idx = npArgmax ((npUnique preds).map (fun u => preds.count u)) := by
        omega
      rw [List.getD_eq_getElem _ _ hargu]
      subst heq
      exact Nat.le_of_eq hidxval

theorem maxVal_perm {l l' : List Nat} (h : l.Perm l') : maxVal l = maxVal l' := by
  induction h with
  | nil => rfl
  | cons x _ ih =>
    show Nat.max x (maxVal _) = Nat.max x (maxVal _)
    rw [ih]
  | swap x y t =>
    show max y (max x (maxVal t)) = max x (max y (maxVal t))
    exact max_left_comm y x (maxVal t)
  | trans _ _ ih1 ih2 => exact ih1.trans ih2

theorem npUnique_perm {l l' : List Nat} (h : l.Perm l') :
    npUnique l = npUnique l' := by
  unfold npUnique
  rw [maxVal_perm h]
  exact List.filter_congr (fun x _ => by
    simp only [decide_eq_decide]
    exact h.mem_iff)

theorem classifyPreds_perm {l l' : List Nat} (h : l.Perm l') :
    classifyPreds l = classifyPreds l' := by
  have hfun : (fun u => l.count u) = (fun u => l'.count u) :=
    funext (fun u => h.count_eq u)
  unfold classifyPreds
  rw [npUnique_perm h, hfun]

theorem npUnique_replicate {n i : Nat} (hn : 0 < n) :
    npUnique (List.replicate n i) = [i] := by
  have hmem : ∀ j, j ∈ npUnique (List.replicate n i) ↔ j = i := by
    intro j
    rw [mem_npUnique, List.mem_replicate]
    omega
  have hpw := npUnique_pairwise (List.replicate n i)
  rcases he : npUnique (List.replicate n i) with _ | ⟨x, t⟩
  · exact absurd ((hmem i).mpr rfl) (by rw [he]; exact List.not_mem_nil i)
  · have hx : x = i := (hmem x).mp (by rw [he]; exact List.mem_cons_self _ _)
    rcases ht : t with _ | ⟨y, t'⟩
    · rw [hx]
    · have hy : y = i := (hmem y).mp (by
        rw [he, ht]
        exact List.mem_cons_of_mem _ (List.mem_cons_self _ _))
      rw [he, ht] at hpw
      have := List.rel_of_pairwise_cons hpw (List.mem_cons_self _ _)
      omega

theorem classifyPreds_replicate {n i : Nat} (hn : 0 < n) :
    classifyPreds (List.replicate n i) =
      (some (IDX_TO_LABEL i), [(IDX_TO_LABEL i, n)]) := by
  unfold classifyPreds
  rw [npUnique_replicate hn]
  simp [npArgmax, maxVal, List.count_replicate_self, List.findIdx_cons]

/-! ## Claims C7, C8, C9 and C10 -/

/-- On a present, non-empty clip `classify_video` is the majority-vote
aggregation of the per-frame predictions. -/
theorem classify_video_nonempty (pf : List Int → Nat)
    (frames : List PoseFrame) (h : frames ≠ []) :
    classify_video pf (some frames) = classifyPreds (framePreds pf frames) := by
  have hie : frames.isEmpty = false := by simpa using h
  unfold classify_video
  simp [hie]

/-- A non-empty clip yields a non-empty prediction list. -/
theorem framePreds_ne_nil (pf : List Int → Nat) {frames : List PoseFrame}
    (h : frames ≠ []) : framePreds pf frames ≠ [] := by
  simpa [framePreds] using h

/-- The per-action loop's history, and likewise the list of labels for
which a per-action reasoning request was issued, is exactly the roster
filtered-and-mapped through per-clip classification, in roster order. -/
theorem runLoop_spec (pf : List Int → Nat)
    (store : String → Option (List PoseFrame)) (roster : List String) :
    (runLoop pf store roster).1 =
      roster.filterMap (fun x => (classify_video pf (store x)).1) ∧
    (runLoop pf store roster).2 =
      roster.filterMap (fun x => (classify_video pf (store x)).1) := by
  induction roster with
  | nil => exact ⟨rfl, rfl⟩
  | cons a rest ih =>
    unfold runLoop
    rcases hcl : (classify_video pf (store a)).1 with _ | lbl
    · simp [List.filterMap_cons, hcl, ih.1, ih.2]
    · simp [List.filterMap_cons, hcl, ih.1, ih.2]

/-- An action whose pose store entry is absent or empty is skipped by the
per-action loop: removing it from the roster leaves the loop's outcome
unchanged. -/
theorem runLoop_skip (pf : List Int → Nat)
    (store : String → Option (List PoseFrame)) (a : String)
    (h : store a = none ∨ store a = some []) (pre post : List String) :
    runLoop pf store (pre ++ a :: post) = runLoop pf store (pre ++ post) := by
  induction pre with
  | nil =>
    simp only [List.nil_append]
    have hcl : (classify_video pf (store a)).1 = none := by
      rcases h with h | h <;> simp [classify_video, h]
    show (match (classify_video pf (store a)).1 with
      | none => runLoop pf store post
      | some lbl => (lbl :: (runLoop pf store post).1,
          lbl :: (runLoop pf store post).2)) = runLoop pf store post
    rw [hcl]
  | cons x xs ih =>
    simp only [List.cons_append]
    show (match (classify_video pf (store x)).1 with
      | none => runLoop pf store (xs ++ a :: post)
      | some lbl => (lbl :: (runLoop pf store (xs ++ a :: post)).1,
          lbl :: (runLoop pf store (xs ++ a :: post)).2)) =
      (match (classify_video pf (store x)).1 with
      | none => runLoop pf store (xs ++ post)
      | some lbl => (lbl :: (runLoop pf store (xs ++ post)).1,
          lbl :: (runLoop pf store (xs ++ post)).2))
    rw [ih]

/-- C7: for every non-empty clip, `classify_video` returns the exact
mapping from each observed predicted label to its frame count (both
inclusions), together with a label of maximal count; on frames all
predicted as one label it returns that label with count `N`; and on the
spec's 10-frame 7/3 scenario it returns
`("open_door", {"open_door": 7, "walk_stop": 3})`. -/
theorem classify_video_majority_counts :
    (∀ (predictFrame : List Int → Nat) (frames : List PoseFrame),
      frames ≠ [] →
      (∀ fr ∈ frames, predictFrame (keypoints_to_vector fr 51) < 4) →
      (∀ i ∈ framePreds predictFrame frames,
        (IDX_TO_LABEL i, (framePreds predictFrame frames).count i) ∈
          (classify_video predictFrame (some frames)).2) ∧
      (∀ q ∈ (classify_video predictFrame (some frames)).2,
        ∃ i ∈ framePreds predictFrame frames,
          q = (IDX_TO_LABEL i, (framePreds predictFrame frames).count i)) ∧
      (∃ m ∈ framePreds predictFrame frames,
        (classify_video predictFrame (some frames)).1 = some (IDX_TO_LABEL m) ∧
        ∀ j ∈ framePreds predictFrame frames,
          (framePreds predictFrame frames).count j ≤
            (framePreds predictFrame frames).count m)) ∧
    (∀ (predictFrame : List Int → Nat) (frames : List PoseFrame) (i : Nat),
      frames ≠ [] →
      (∀ fr ∈ frames, predictFrame (keypoints_to_vector fr 51) = i) →
      classify_video predictFrame (some frames) =
        (some (IDX_TO_LABEL i), [(IDX_TO_LABEL i, frames.length)])) ∧
    classify_video predictFrameExample (some framesExample) =
      (some "open_door", [("open_door", 7), ("walk_stop", 3)]) := by
  refine ⟨?_, ?_, ?_⟩
  · intro pf frames hne _hvalid
    have hcv := classify_video_nonempty pf frames hne
    have hpne := framePreds_ne_nil pf hne
    refine ⟨?_, ?_, ?_⟩
    · intro i hi
      rw [hcv, classifyPreds_dict]
      exact List.mem_map_of_mem _ (mem_npUnique.mpr hi)
    · intro q hq
      rw [hcv, classifyPreds_dict] at hq
      obtain ⟨u, hu, rfl⟩ := List.mem_map.mp hq
      exact ⟨u, mem_npUnique.mp hu, rfl⟩
    · obtain ⟨m, hm, heq, hmax, _⟩ := classifyPreds_majority _ hpne
      exact ⟨m, hm, by rw [hcv]; exact heq, hmax⟩
  · intro pf frames i hne hall
    have hrep : framePreds pf frames =
        List.replicate (framePreds pf frames).length i := by
      apply List.eq_replicate_of_mem
      intro b hb
      obtain ⟨fr, hfr, rfl⟩ := List.mem_map.mp hb
      exact hall fr hfr
    have hlen : (framePreds pf frames).length = frames.length := by
      simp [framePreds]
    have hpos : 0 < frames.length := List.length_pos.mpr hne
    rw [classify_video_nonempty pf frames hne, hrep, hlen]
    exact classifyPreds_replicate hpos
  · decide

/-- C8: `classify_video` on a missing pose directory or an empty frame set
returns `(none, {})` without any prediction, and the orchestrator handles
that outcome as a skipped clip: the run over `a :: rest` equals the run
over `rest`, so the pipeline continues rather than failing. -/
theorem classify_video_empty_and_skip :
    (∀ pf : List Int → Nat, classify_video pf none = (none, [])) ∧
    (∀ pf : List Int → Nat, classify_video pf (some []) = (none, [])) ∧
    (∀ (pf : List Int → Nat) (store : String → Option (List PoseFrame))
      (a : String) (rest : List String),
      store a = none ∨ store a = some [] →
      runPipelineOn pf store (a :: rest) = runPipelineOn pf store rest) := by
  refine ⟨fun pf => rfl, fun pf => rfl, ?_⟩
  intro pf store a rest h
  have hskip := runLoop_skip pf store a h [] rest
  simp only [List.nil_append] at hskip
  unfold runPipelineOn
  rw [hskip]

/-- Witness for C8 at a concrete predictor, store and roster. -/
theorem classify_video_empty_and_skip_witness :
    classify_video predictZero none = (none, []) ∧
    classify_video predictZero (some []) = (none, []) ∧
    runPipelineOn predictZero storeNone ("open_door" :: []) =
      runPipelineOn predictZero storeNone [] :=
  ⟨classify_video_empty_and_skip.1 predictZero,
   classify_video_empty_and_skip.2.1 predictZero,
   classify_video_empty_and_skip.2.2 predictZero storeNone "open_door" []
     (Or.inl rfl)⟩

/-- C9: in every run where some action's pose folder is absent or empty,
the orchestrator skips that action — the run equals the run over the roster
without it, so the action contributes neither history entry nor per-action
reasoning — continues with the remaining roster in declared order (the
history is the remaining roster filter-mapped through classification, and
one reasoning request is issued per history entry), and issues exactly one
temporal pass over the remaining history when it is non-empty, skipping the
temporal stage entirely when it is empty; the run always completes. -/
theorem pipeline_skip_action (pf : List Int → Nat)
    (store : String → Option (List PoseFrame)) (pre post : List String)
    (a : String) (h : store a = none ∨ store a = some []) :
    runPipelineOn pf store (pre ++ a :: post) =
      runPipelineOn pf store (pre ++ post) ∧
    (runPipelineOn pf store (pre ++ a :: post)).history =
      (pre ++ post).filterMap (fun x => (classify_video pf (store x)).1) ∧
    (runPipelineOn pf store (pre ++ a :: post)).perAction =
      (runPipelineOn pf store (pre ++ a :: post)).history ∧
    ((runPipelineOn pf store (pre ++ a :: post)).history = [] →
      (runPipelineOn pf store (pre ++ a :: post)).temporal = none) ∧
    ((runPipelineOn pf store (pre ++ a :: post)).history ≠ [] →
      (runPipelineOn pf store (pre ++ a :: post)).temporal =
        some (runPipelineOn pf store (pre ++ a :: post)).history) := by
  have hskip := runLoop_skip pf store a h pre post
  have heq : runPipelineOn pf store (pre ++ a :: post) =
      runPipelineOn pf store (pre ++ post) := by
    unfold runPipelineOn
    rw [hskip]
  refine ⟨heq, ?_, ?_, ?_, ?_⟩
  · rw [heq]
    show (runLoop pf store (pre ++ post)).1 = _
    exact (runLoop_spec pf store (pre ++ post)).1
  · rw [heq]
    show (runLoop pf store (pre ++ post)).2 = (runLoop pf store (pre ++ post)).1
    rw [(runLoop_spec pf store (pre ++ post)).1,
      (runLoop_spec pf store (pre ++ post)).2]
  · intro hh
    rw [heq] at hh ⊢
    have hh' : (runLoop pf store (pre ++ post)).1 = [] := hh
    show (if (runLoop pf store (pre ++ post)).1.isEmpty then none
      else some (runLoop pf store (pre ++ post)).1) = none
    have : (runLoop pf store (pre ++ post)).1.isEmpty = true := by
      simp [hh']
    rw [this]
    rfl
  · intro hh
    rw [heq] at hh ⊢
    have hh' : (runLoop pf store (pre ++ post)).1 ≠ [] := hh
    show (if (runLoop pf store (pre ++ post)).1.isEmpty then none
      else some (runLoop pf store (pre ++ post)).1) =
      some (runLoop pf store (pre ++ post)).1
    have : (runLoop pf store (pre ++ post)).1.isEmpty = false := by
      simpa using hh'
    rw [this]
    rfl

/-- Witness for C9: a two-action roster whose first action has no pose
data. -/
theorem pipeline_skip_action_witness :
    runPipelineOn predictZero storeOneClip ([] ++ "pick_book" :: ["open_door"]) =
      runPipelineOn predictZero storeOneClip ([] ++ ["open_door"]) ∧
    (runPipelineOn predictZero storeOneClip
        ([] ++ "pick_book" :: ["open_door"])).history =
      ([] ++ ["open_door"]).filterMap
        (fun x => (classify_video predictZero (storeOneClip x)).1) ∧
    (runPipelineOn predictZero storeOneClip
        ([] ++ "pick_book" :: ["open_door"])).perAction =
      (runPipelineOn predictZero storeOneClip
        ([] ++ "pick_book" :: ["open_door"])).history ∧
    ((runPipelineOn predictZero storeOneClip
        ([] ++ "pick_book" :: ["open_door"])).history = [] →
      (runPipelineOn predictZero storeOneClip
        ([] ++ "pick_book" :: ["open_door"])).temporal = none) ∧
    ((runPipelineOn predictZero storeOneClip
        ([] ++ "pick_book" :: ["open_door"])).history ≠ [] →
      (runPipelineOn predictZero storeOneClip
        ([] ++ "pick_book" :: ["open_door"])).temporal =
        some (runPipelineOn predictZero storeOneClip
          ([] ++ "pick_book" :: ["open_door"])).history) :=
  pipeline_skip_action predictZero storeOneClip [] ["open_door"] "pick_book"
    (Or.inl rfl)

/-- C10: on a non-empty clip the majority label maximizes the frame count
and, among tied labels of maximal count, is the one with the smallest label
index (counts are tallied over the ascending-sorted unique indices and
`np.argmax` takes the first maximum); and the result depends only on the
multiset of per-frame predictions — permuting the frames leaves the output
unchanged. -/
theorem classify_video_tiebreak (pf : List Int → Nat)
    (frames : List PoseFrame) (hne : frames ≠ [])
    (_hvalid : ∀ fr ∈ frames, pf (keypoints_to_vector fr 51) < 4) :
    (∃ m ∈ framePreds pf frames,
      (classify_video pf (some frames)).1 = some (IDX_TO_LABEL m) ∧
      (∀ j ∈ framePreds pf frames,
        (framePreds pf frames).count j ≤ (framePreds pf frames).count m) ∧
      (∀ j ∈ framePreds pf frames,
        (framePreds pf frames).count j = (framePreds pf frames).count m →
          m ≤ j)) ∧
    (∀ frames' : List PoseFrame, frames'.Perm frames →
      classify_video pf (some frames') = classify_video pf (some frames)) := by
  constructor
  · obtain ⟨m, hm, heq, hmax, htie⟩ :=
      classifyPreds_majority _ (framePreds_ne_nil pf hne)
    exact ⟨m, hm,
      by rw [classify_video_nonempty pf frames hne]; exact heq, hmax, htie⟩
  · intro frames' hperm
    have hne' : frames' ≠ [] := by
      intro hnil
      subst hnil
      exact hne (List.Perm.eq_nil hperm.symm)
    rw [classify_video_nonempty pf frames hne,
      classify_video_nonempty pf frames' hne']
    exact classifyPreds_perm (hperm.map _)

/-- Witness for C10 at the concrete tied clip. -/
theorem classify_video_tiebreak_witness :
    (∃ m ∈ framePreds predictFrameExample framesTie,
      (classify_video predictFrameExample (some framesTie)).1 =
        some (IDX_TO_LABEL m) ∧
      (∀ j ∈ framePreds predictFrameExample framesTie,
        (framePreds predictFrameExample framesTie).count j ≤
          (framePreds predictFrameExample framesTie).count m) ∧
      (∀ j ∈ framePreds predictFrameExample framesTie,
        (framePreds predictFrameExample framesTie).count j =
          (framePreds predictFrameExample framesTie).count m → m ≤ j)) ∧
    (∀ frames' : List PoseFrame, frames'.Perm framesTie →
      classify_video predictFrameExample (some frames') =
        classify_video predictFrameExample (some framesTie)) :=
  classify_video_tiebreak predictFrameExample framesTie (by decide) (by decide)

/-- Witness for C7: three frames all predicted with the same label. -/
theorem classify_video_majority_counts_witness :
    classify_video predictZero (some [none, none, none]) =
      (some (IDX_TO_LABEL 0),
        [(IDX_TO_LABEL 0, ([none, none, none] : List PoseFrame).length)]) :=
  classify_video_majority_counts.2.1 predictZero [none, none, none] 0
    (by decide) (fun _ _ => rfl)
